import Mathlib

/-!
Shallow embedding of the jewelry production backend
(src/models.py, src/main.py): job/transaction data model, input
validation (pydantic field constraints and validators), the handler
bodies for job creation, assignment, administrative update, task
completion, and the worker-performance report, together with the
catch-all error wrapper each handler installs around its body.

Weights and percentages are modelled as rationals; the store is a pair
of in-memory tables with storage-assigned integer ids.  The `id`
columns are primary keys: the row fetched by an equality filter on
`id` is the row later updated and returned.
-/

set_option autoImplicit false

deriving instance DecidableEq for Except

namespace Jewelry

/-- User roles (models.py UserRole). -/
inductive Role
  | owner | caster | filer | setter | polisher
deriving DecidableEq, Repr

/-- Job lifecycle status (models.py JobStatus). -/
inductive JobStatus
  | created | in_progress | pending_assignment | completed | cancelled
deriving DecidableEq, Repr

/-- Production stage (models.py ProductionStage). -/
inductive Stage
  | casting | filing | setting | polishing
deriving DecidableEq, Repr

/-- Transaction status: the code only ever stores these two strings. -/
inductive TransStatus
  | in_progress | completed
deriving DecidableEq, Repr

/-- A row of the users table (only the fields the core reads). -/
structure User where
  id : ℤ
  full_name : String
  role : Role
deriving DecidableEq, Repr

/-- A row of the jobs table. -/
structure Job where
  id : ℤ
  design_no : String
  item_category : String
  initial_weight : ℚ
  total_loss : ℚ
  loss_percentage : ℚ
  status : JobStatus
  current_stage : Option Stage
  current_worker_id : Option ℤ
  created_at : ℕ
  created_by : ℤ
  description : Option String
deriving DecidableEq, Repr

/-- A row of the transactions table. -/
structure Transaction where
  id : ℤ
  job_id : ℤ
  worker_id : ℤ
  stage : Stage
  issued_weight : ℚ
  returned_weight : Option ℚ
  loss : Option ℚ
  loss_percentage : Option ℚ
  issued_at : ℕ
  returned_at : Option ℕ
  status : TransStatus
  notes : Option String
deriving DecidableEq, Repr

/-- The shared storage state: the three tables, the next ids the
storage layer will assign, and the current clock (datetime.utcnow). -/
structure DB where
  jobs : List Job
  transactions : List Transaction
  users : List User
  next_job_id : ℤ
  next_trans_id : ℤ
  now : ℕ
deriving DecidableEq, Repr

/-- An HTTP error as raised by the handlers (HTTPException). -/
structure Err where
  status_code : ℕ
  detail : String
deriving DecidableEq, Repr

/-- str() of an HTTPException: "status_code: detail". -/
def httpDetail (e : Err) : String :=
  toString e.status_code ++ ": " ++ e.detail

/-- The catch-all installed by every handler: any exception raised in
the body (HTTPException included) is caught and re-raised as
HTTPException(500, str(e)) (main.py, the except clause of each
handler). -/
def catchAll {α : Type} (r : Except Err α) : Except Err α :=
  match r with
  | .ok a => .ok a
  | .error e => .error ⟨500, httpDetail e⟩

/-- Rounding to 3 decimal places as applied by the pydantic weight
validators (round(v, 3)).  Python rounds the nearest binary double;
for every value relevant here (exact 3-decimal inputs, and the spec's
boundary value 0.0005, whose nearest double lies strictly above
1/2000) this agrees with rounding half up. -/
def round3 (q : ℚ) : ℚ := (round (q * 1000) : ℚ) / 1000

/-- Weight input acceptance shared by JobCreate.initial_weight,
JobAssignment.issued_weight and WorkerTaskCompletion.returned_weight
(models.py): Field(gt=0) rejects non-positive raw values, then the
validator rounds to 3 decimals.  Pydantic runs this during request
parsing, before the handler body: failures surface as the
framework's 422 validation response, untouched by the catch-all. -/
def validateWeight (w : ℚ) : Except Err ℚ :=
  if w ≤ 0 then .error ⟨422, "Weight must be positive"⟩
  else .ok (round3 w)

/-- A validated JobCreate payload (weight already through
validateWeight). -/
structure JobCreate where
  design_no : String
  item_category : String
  initial_weight : ℚ
  description : Option String
deriving DecidableEq, Repr

/-- A validated JobAssignment payload. -/
structure JobAssignment where
  worker_id : ℤ
  stage : Stage
  issued_weight : ℚ
deriving DecidableEq, Repr

/-- A validated WorkerTaskCompletion payload. -/
structure Completion where
  transaction_id : ℤ
  returned_weight : ℚ
  notes : Option String
deriving DecidableEq, Repr

/-- JobUpdate payload: exactly the four optional fields of models.py
JobUpdate; a `none` field was not supplied (exclude_unset). -/
structure JobUpdate where
  design_no : Option String
  item_category : Option String
  description : Option String
  status : Option JobStatus
deriving DecidableEq, Repr

/-- select * from jobs where id = jobId (first row). -/
def jobFor (db : DB) (jobId : ℤ) : Option Job :=
  (db.jobs.filter (fun j => j.id == jobId)).head?

/-- select * from transactions where id = tid and worker_id = uid
(first row).  This is the completion handler's lookup, main.py line
300: note it does NOT filter on status. -/
def transFor (db : DB) (tid uid : ℤ) : Option Transaction :=
  (db.transactions.filter (fun t => t.id == tid && t.worker_id == uid)).head?

/-- Loss of a completion: issued - returned (main.py line 312). -/
def lossOf (issued returned : ℚ) : ℚ := issued - returned

/-- Loss percentage with division-by-zero guard:
base > 0 ? lossAmount / base * 100 : 0 (main.py lines 313 and 332). -/
def lossPercentage (lossAmount base : ℚ) : ℚ :=
  if 0 < base then lossAmount / base * 100 else 0

/-- Body of POST /api/jobs (main.py create_job try block): inserts a
job in status created with zero aggregates, no stage, no worker. -/
def create_job_body (uid : ℤ) (jc : JobCreate) (db : DB) :
    Except Err (Job × DB) :=
  let j : Job :=
    { id := db.next_job_id
      design_no := jc.design_no
      item_category := jc.item_category
      initial_weight := jc.initial_weight
      total_loss := 0
      loss_percentage := 0
      status := .created
      current_stage := none
      current_worker_id := none
      created_at := db.now
      created_by := uid
      description := jc.description }
  .ok (j, { db with jobs := db.jobs ++ [j], next_job_id := db.next_job_id + 1 })

/-- Body of POST /api/jobs/\x7bjob_id\x7d/assign (main.py assign_job try
block): fetch the job (404 if absent — no status check), insert an
in_progress transaction, then set the job in_progress with the stage
and worker. -/
def assign_job_body (jobId : ℤ) (a : JobAssignment) (db : DB) :
    Except Err (Transaction × DB) :=
  match jobFor db jobId with
  | none => .error ⟨404, "Job not found"⟩
  | some _ =>
    let t : Transaction :=
      { id := db.next_trans_id
        job_id := jobId
        worker_id := a.worker_id
        stage := a.stage
        issued_weight := a.issued_weight
        returned_weight := none
        loss := none
        loss_percentage := none
        issued_at := db.now
        returned_at := none
        status := .in_progress
        notes := none }
    let jobs' := db.jobs.map (fun j =>
      if j.id == jobId then
        { j with status := JobStatus.in_progress
                 current_stage := some a.stage
                 current_worker_id := some a.worker_id }
      else j)
    .ok (t, { db with
                transactions := db.transactions ++ [t]
                jobs := jobs'
                next_trans_id := db.next_trans_id + 1 })

/-- Field-wise application of a JobUpdate (update with
dict(exclude_unset=True)). -/
def applyJobUpdate (u : JobUpdate) (j : Job) : Job :=
  { j with design_no := u.design_no.getD j.design_no
           item_category := u.item_category.getD j.item_category
           description := match u.description with
                          | some d => some d
                          | none => j.description
           status := u.status.getD j.status }

/-- Body of PUT /api/jobs/\x7bjob_id\x7d (main.py update_job try block):
400 when no field was supplied, 404 when the filtered update matched
no row, otherwise the partial update applied as-is — note it can set
status while never touching current_worker_id. -/
def update_job_body (jobId : ℤ) (u : JobUpdate) (db : DB) :
    Except Err (Job × DB) :=
  if u.design_no = none ∧ u.item_category = none ∧
     u.description = none ∧ u.status = none then
    .error ⟨400, "No update data provided"⟩
  else
    match jobFor db jobId with
    | none => .error ⟨404, "Job not found"⟩
    | some j =>
      .ok (applyJobUpdate u j,
           { db with jobs := db.jobs.map (fun k =>
               if k.id == jobId then applyJobUpdate u k else k) })

/-- The transaction update written on completion (main.py lines
316-323). -/
def completeTrans (c : Completion) (l lp : ℚ) (t0 : ℕ)
    (t : Transaction) : Transaction :=
  { t with returned_weight := some c.returned_weight
           returned_at := some t0
           loss := some l
           loss_percentage := some lp
           status := TransStatus.completed
           notes := c.notes }

/-- Body of POST /api/worker/complete-task (main.py complete_task try
block): fetch by id and worker (404 if absent), reject returned >
issued (400), compute loss and percentage, complete the transaction,
then roll the loss into the owning job, clear its worker and set it
pending_assignment.  The job fetch mirrors job_result.data[0]: a
missing job row raises an IndexError. -/
def complete_task_body (uid : ℤ) (c : Completion) (db : DB) :
    Except Err (Transaction × DB) :=
  match transFor db c.transaction_id uid with
  | none => .error ⟨404, "Transaction not found or not assigned to you"⟩
  | some t =>
    if t.issued_weight < c.returned_weight then
      .error ⟨400, "Returned weight cannot be greater than issued weight"⟩
    else
      let l := lossOf t.issued_weight c.returned_weight
      let lp := lossPercentage l t.issued_weight
      let db1 := { db with transactions := db.transactions.map (fun u =>
        if u.id == c.transaction_id then completeTrans c l lp db.now u else u) }
      match jobFor db1 t.job_id with
      | none => .error ⟨500, "list index out of range"⟩
      | some j =>
        let ntl := j.total_loss + l
        let nlp := lossPercentage ntl j.initial_weight
        let db2 := { db1 with jobs := db1.jobs.map (fun k =>
          if k.id == t.job_id then
            { k with total_loss := ntl
                     loss_percentage := nlp
                     current_worker_id := none
                     status := JobStatus.pending_assignment }
          else k) }
        .ok (completeTrans c l lp db.now t, db2)

/-- Full POST /api/jobs/\x7bjob_id\x7d/assign endpoint: pydantic input
validation (framework level, before the handler), the owner-role
guard (first statement of the handler, outside the try), then the
body under the catch-all. -/
def assign_job (role : Role) (jobId wk : ℤ) (st : Stage) (rawWeight : ℚ)
    (db : DB) : Except Err (Transaction × DB) :=
  match validateWeight rawWeight with
  | .error e => .error e
  | .ok w =>
    if role ≠ Role.owner then .error ⟨403, "Not authorized"⟩
    else catchAll (assign_job_body jobId ⟨wk, st, w⟩ db)

/-- Full POST /api/worker/complete-task endpoint: pydantic input
validation, the workers-only guard (outside the try), then the body
under the catch-all. -/
def complete_task (role : Role) (uid tid : ℤ) (rawWeight : ℚ)
    (notes : Option String) (db : DB) : Except Err (Transaction × DB) :=
  match validateWeight rawWeight with
  | .error e => .error e
  | .ok w =>
    if role = Role.owner then
      .error ⟨403, "This endpoint is for workers only"⟩
    else catchAll (complete_task_body uid ⟨tid, w, notes⟩ db)

/-- One entry of the worker performance report (models.py
WorkerPerformanceReport). -/
structure WStats where
  worker_id : ℤ
  worker_name : String
  role : Role
  total_jobs : ℕ
  total_loss : ℚ
  average_loss_percentage : ℚ
deriving DecidableEq, Repr

/-- Display name from the users join of the report query; the
performance figures never depend on it. -/
def fullNameOf (db : DB) (w : ℤ) : String :=
  ((db.users.filter (fun u => u.id == w)).head?).elim "" User.full_name

/-- Display role from the users join of the report query. -/
def roleOf (db : DB) (w : ℤ) : Role :=
  ((db.users.filter (fun u => u.id == w)).head?).elim Role.caster User.role

/-- One iteration of the aggregation loop of get_worker_performance
(main.py lines 359-372): on first sight of a worker a zero entry is
inserted and immediately incremented — written here as appending the
already-incremented entry; otherwise the worker's entry is
incremented in place. -/
def bump (db : DB) (acc : List WStats) (t : Transaction) : List WStats :=
  if acc.any (fun s => s.worker_id == t.worker_id) then
    acc.map (fun s =>
      if s.worker_id == t.worker_id then
        { s with total_jobs := s.total_jobs + 1
                 total_loss := s.total_loss + t.loss.getD 0 }
      else s)
  else
    acc ++ [{ worker_id := t.worker_id
              worker_name := fullNameOf db t.worker_id
              role := roleOf db t.worker_id
              total_jobs := 1
              total_loss := t.loss.getD 0
              average_loss_percentage := 0 }]

/-- The average pass (main.py lines 375-378):
avg = total_loss / total_jobs when total_jobs > 0 else 0. -/
def setAvg (s : WStats) : WStats :=
  { s with average_loss_percentage :=
      if 0 < s.total_jobs then s.total_loss / (s.total_jobs : ℚ) else 0 }

/-- Sort key relation of the final sorted(..., reverse=True): later
entries have average no larger than earlier ones. -/
abbrev wperfGE (a b : WStats) : Prop :=
  b.average_loss_percentage ≤ a.average_loss_percentage

instance : IsTotal WStats wperfGE :=
  ⟨fun a b => (le_total b.average_loss_percentage a.average_loss_percentage).imp id id⟩

instance : IsTrans WStats wperfGE :=
  ⟨fun _ _ _ h₁ h₂ => le_trans h₂ h₁⟩

/-- The completed transactions the report query selects
(eq("status", "completed")). -/
def completedTs (db : DB) : List Transaction :=
  db.transactions.filter (fun t => t.status == TransStatus.completed)

/-- GET /api/reports/worker-performance (main.py
get_worker_performance): group the completed transactions by worker,
compute each average, sort by average descending. -/
def get_worker_performance (db : DB) : List WStats :=
  (((completedTs db).foldl (bump db) []).map setAvg).insertionSort wperfGE

/-- Advance the state on success, keep it on failure (used only to
build concrete scenario states). -/
def afterOk {α : Type} (r : Except Err (α × DB)) (d : DB) : DB :=
  match r with
  | .ok p => p.2
  | .error _ => d

/-- The empty store. -/
def db0 : DB :=
  { jobs := [], transactions := [], users := [],
    next_job_id := 1, next_trans_id := 1, now := 0 }

/-- Scenario A, step 1: owner (id 1) creates a job with initial
weight 10.000. -/
def dbA1 : DB := afterOk (create_job_body 1 ⟨"D-1", "ring", 10, none⟩ db0) db0

/-- Scenario A, step 2: the job is assigned to worker 5 for casting
with issued weight 10.000. -/
def dbA2 : DB :=
  afterOk (assign_job_body 1 ⟨5, Stage.casting, 10⟩ dbA1) dbA1

/-- The live transaction of Scenario A after assignment. -/
def tA : Transaction :=
  { id := 1, job_id := 1, worker_id := 5, stage := Stage.casting,
    issued_weight := 10, returned_weight := none, loss := none,
    loss_percentage := none, issued_at := 0, returned_at := none,
    status := TransStatus.in_progress, notes := none }

/-- The job of Scenario A after assignment. -/
def jA : Job :=
  { id := 1, design_no := "D-1", item_category := "ring",
    initial_weight := 10, total_loss := 0, loss_percentage := 0,
    status := JobStatus.in_progress, current_stage := some Stage.casting,
    current_worker_id := some 5, created_at := 0, created_by := 1,
    description := none }

/-- Scenario A, step 3: worker 5 completes with returned weight
9.500. -/
def dbA3 : DB :=
  afterOk (complete_task_body 5 ⟨1, 19/2, none⟩ dbA2) dbA2

/-- The same store with the clock advanced, as seen by a later
double-submission of the completion. -/
def dbA4 : DB := { dbA3 with now := 1 }

/-- A store holding one freshly created job (id 1). -/
def j9 : Job :=
  { id := 1, design_no := "D-9", item_category := "ring",
    initial_weight := 5, total_loss := 0, loss_percentage := 0,
    status := JobStatus.created, current_stage := none,
    current_worker_id := none, created_at := 0, created_by := 1,
    description := none }

/-- Store for the assignment boundary cases. -/
def db9 : DB :=
  { jobs := [j9], transactions := [], users := [],
    next_job_id := 2, next_trans_id := 1, now := 0 }

/-- A job whose stored initial weight is zero (reachable by creating
it with a raw weight strictly between 0 and 0.0005). -/
def j10 : Job :=
  { id := 1, design_no := "D-10", item_category := "ring",
    initial_weight := 0, total_loss := 0, loss_percentage := 0,
    status := JobStatus.in_progress, current_stage := some Stage.casting,
    current_worker_id := some 5, created_at := 0, created_by := 1,
    description := none }

/-- A live transaction whose stored issued weight is zero. -/
def t10 : Transaction :=
  { id := 1, job_id := 1, worker_id := 5, stage := Stage.casting,
    issued_weight := 0, returned_weight := none, loss := none,
    loss_percentage := none, issued_at := 0, returned_at := none,
    status := TransStatus.in_progress, notes := none }

/-- Store holding the zero-weight job and transaction. -/
def db10 : DB :=
  { jobs := [j10], transactions := [t10], users := [],
    next_job_id := 2, next_trans_id := 2, now := 0 }

/-- The job of Scenario A as created, before assignment. -/
def jA0 : Job :=
  { id := 1, design_no := "D-1", item_category := "ring",
    initial_weight := 10, total_loss := 0, loss_percentage := 0,
    status := JobStatus.created, current_stage := none,
    current_worker_id := none, created_at := 0, created_by := 1,
    description := none }

/-- The completed transaction of Scenario A after the first
completion. -/
def trA3 : Transaction :=
  { id := 1, job_id := 1, worker_id := 5, stage := Stage.casting,
    issued_weight := 10, returned_weight := some (19 / 2),
    loss := some (1 / 2), loss_percentage := some 5, issued_at := 0,
    returned_at := some 0, status := TransStatus.completed, notes := none }

/-- An administrative update supplying only a status. -/
def updC5 : JobUpdate := ⟨none, none, none, some JobStatus.completed⟩

/-- The job invariant of the spec: current_worker_id is non-null iff
the job is in_progress. -/
def jobInv (j : Job) : Prop :=
  j.current_worker_id.isSome ↔ j.status = JobStatus.in_progress

/-- The report entry currently held for a worker: the first (and, as
the keys are unique, only) element of the accumulator with that
worker id — the dict lookup of the aggregation loop. -/
def statsFor (w : ℤ) (l : List WStats) : Option WStats :=
  (l.filter (fun s => s.worker_id == w)).head?

/-- Number of transactions of a worker in a transaction list. -/
def countW (ts : List Transaction) (w : ℤ) : ℕ :=
  ts.countP (fun t => t.worker_id == w)

/-- Summed loss of a worker's transactions in a transaction list. -/
def sumW (ts : List Transaction) (w : ℤ) : ℚ :=
  ((ts.filter (fun t => t.worker_id == w)).map (fun t => t.loss.getD 0)).sum

/-- The worker ids of the accumulator entries, in order. -/
def wkeys (l : List WStats) : List ℤ := l.map WStats.worker_id

end Jewelry

namespace Jewelry

/-- Rounding to 3 decimals is monotone. -/
theorem round3_mono {a b : ℚ} (h : a ≤ b) : round3 a ≤ round3 b := by
  unfold round3
  have h1 : round (a * 1000) ≤ round (b * 1000) := by
    rw [round_eq, round_eq]
    exact Int.floor_mono (by linarith)
  have h2 : ((round (a * 1000) : ℤ) : ℚ) ≤ ((round (b * 1000) : ℤ) : ℚ) :=
    Int.cast_le.mpr h1
  linarith

/-- A value already fixed to 3 decimals is left unchanged. -/
theorem round3_fixed (n : ℤ) : round3 ((n : ℚ) / 1000) = (n : ℚ) / 1000 := by
  unfold round3
  rw [div_mul_cancel₀ _ (by norm_num : (1000 : ℚ) ≠ 0), round_intCast]

/-- Raw weights strictly below 0.0005 round to zero. -/
theorem round3_small {w : ℚ} (h0 : 0 < w) (h1 : w < 1 / 2000) :
    round3 w = 0 := by
  unfold round3
  have : round (w * 1000) = 0 := by
    rw [round_eq, Int.floor_eq_zero_iff]
    constructor
    · linarith
    · show w * 1000 + 1 / 2 < 1
      linarith
  rw [this]
  norm_num

end Jewelry

namespace Jewelry

/-- Filtering commutes with a map that does not change the predicate:
the first matching row of the mapped table is the image of the first
matching row. -/
theorem head_filter_map {α : Type} (p : α → Bool) (f : α → α)
    (hf : ∀ x, p (f x) = p x) (l : List α) :
    ((l.map f).filter p).head? = ((l.filter p).head?).map f := by
  induction l with
  | nil => simp
  | cons a l ih =>
    by_cases h : p a
    · simp [List.filter_cons, hf, h]
    · simpa [List.filter_cons, hf, h] using ih

/-- C8: for every issued/returned pair with 0 < returned ≤ issued,
the computed loss equals issued - returned and is nonnegative, and
the computed loss percentage lies between 0 and 100. -/
theorem C8_loss_bounds (I R : ℚ) (h0 : 0 < R) (hle : R ≤ I) :
    lossOf I R = I - R ∧ 0 ≤ lossOf I R ∧
    0 ≤ lossPercentage (lossOf I R) I ∧
    lossPercentage (lossOf I R) I ≤ 100 := by
  have hI : 0 < I := lt_of_lt_of_le h0 hle
  refine ⟨rfl, by simp only [lossOf]; linarith, ?_, ?_⟩
  · rw [lossPercentage, if_pos hI, lossOf]
    have : 0 ≤ (I - R) / I := div_nonneg (by linarith) hI.le
    linarith
  · rw [lossPercentage, if_pos hI, lossOf, div_mul_eq_mul_div,
      div_le_iff₀ hI]
    nlinarith

/-- C8 witness: issued 10, returned 9.5. -/
theorem C8_loss_bounds_witness :
    (0 : ℚ) < 19 / 2 ∧ (19 / 2 : ℚ) ≤ 10 ∧
    (lossOf 10 (19 / 2) = 10 - 19 / 2 ∧ 0 ≤ lossOf 10 (19 / 2) ∧
      0 ≤ lossPercentage (lossOf 10 (19 / 2)) 10 ∧
      lossPercentage (lossOf 10 (19 / 2)) 10 ≤ 100) :=
  ⟨by norm_num, by norm_num, C8_loss_bounds 10 (19 / 2) (by norm_num) (by norm_num)⟩

/-- C9: assigning with raw issued weight 0 is rejected by input
validation; raw issued weight 0.0005 passes, is rounded to 0.001, and
the assignment succeeds storing issued weight 0.001 both in the
returned transaction and in the ledger row. -/
theorem C9_boundary_weights :
    assign_job Role.owner 1 5 Stage.casting 0 db9 =
      .error ⟨422, "Weight must be positive"⟩ ∧
    validateWeight (1 / 2000) = .ok (1 / 1000) ∧
    (assign_job Role.owner 1 5 Stage.casting (1 / 2000) db9).map
        (fun p => (p.1.issued_weight, p.2.transactions.map Transaction.issued_weight)) =
      .ok (1 / 1000, [1 / 1000]) := by
  refine ⟨by norm_num [assign_job, validateWeight], ?_, ?_⟩
  · norm_num [validateWeight, round3, round_eq]
  · norm_num [assign_job, validateWeight, round3, round_eq, catchAll,
      assign_job_body, jobFor, db9, j9, List.find?, Except.map]

/-- C10: a raw weight strictly between 0 and 0.0005 passes the
positivity check (applied before rounding) and is stored as 0.000;
the loss-percentage computation on a zero base takes the guarded
else-branch and returns 0; completing a zero-issued-weight
transaction succeeds with loss 0 and loss percentage 0 instead of
raising a division error. -/
theorem C10_subhalf_weight_zero (w : ℚ) (h0 : 0 < w) (h1 : w < 1 / 2000) :
    validateWeight w = .ok 0 ∧
    (∀ l : ℚ, lossPercentage l 0 = 0) ∧
    (complete_task_body 5 ⟨1, 0, none⟩ db10).map
        (fun p => (p.1.loss, p.1.loss_percentage, p.1.status)) =
      .ok (some 0, some 0, TransStatus.completed) := by
  refine ⟨?_, fun l => by simp [lossPercentage], ?_⟩
  · rw [validateWeight, if_neg (by linarith), round3_small h0 h1]
  · norm_num [complete_task_body, transFor, jobFor, db10, t10, j10,
      lossOf, lossPercentage, completeTrans, List.find?, Except.map]

/-- C10 witness: raw weight 0.00025. -/
theorem C10_subhalf_weight_zero_witness :
    (0 : ℚ) < 1 / 4000 ∧ (1 / 4000 : ℚ) < 1 / 2000 ∧
    (validateWeight (1 / 4000) = .ok 0 ∧
      (∀ l : ℚ, lossPercentage l 0 = 0) ∧
      (complete_task_body 5 ⟨1, 0, none⟩ db10).map
          (fun p => (p.1.loss, p.1.loss_percentage, p.1.status)) =
        .ok (some 0, some 0, TransStatus.completed)) :=
  ⟨by norm_num, by norm_num,
    C10_subhalf_weight_zero (1 / 4000) (by norm_num) (by norm_num)⟩

end Jewelry

namespace Jewelry

/-- A row found by jobFor carries the id it was filtered on. -/
theorem jobFor_id {db : DB} {i : ℤ} {j : Job} (h : jobFor db i = some j) :
    j.id = i := by
  unfold jobFor at h
  have hm : j ∈ db.jobs.filter (fun k => k.id == i) :=
    List.mem_of_mem_head? (by simp [h])
  simpa using (List.mem_filter.mp hm).2

/-- A row found by transFor carries the transaction id and worker id
it was filtered on. -/
theorem transFor_keys {db : DB} {tid uid : ℤ} {t : Transaction}
    (h : transFor db tid uid = some t) : t.id = tid ∧ t.worker_id = uid := by
  unfold transFor at h
  have hm : t ∈ db.transactions.filter
      (fun u => u.id == tid && u.worker_id == uid) :=
    List.mem_of_mem_head? (by simp [h])
  have := (List.mem_filter.mp hm).2
  simp only [Bool.and_eq_true, beq_iff_eq] at this
  exact this

/-- Core success behaviour of the completion body: with a row found
for (transaction id, worker), a returned weight not exceeding the
issued weight, and the owning job present, the body succeeds; the
returned record is the completed transaction and the owning job has
absorbed the loss, lost its worker and become pending_assignment. -/
theorem complete_body_spec (db : DB) (uid tid : ℤ) (rw : ℚ)
    (notes : Option String) (t : Transaction) (j : Job)
    (ht : transFor db tid uid = some t)
    (hj : jobFor db t.job_id = some j)
    (hle : rw ≤ t.issued_weight) :
    ∃ tr db', complete_task_body uid ⟨tid, rw, notes⟩ db = .ok (tr, db') ∧
      tr = completeTrans ⟨tid, rw, notes⟩ (lossOf t.issued_weight rw)
             (lossPercentage (lossOf t.issued_weight rw) t.issued_weight)
             db.now t ∧
      jobFor db' t.job_id = some
        { j with
          total_loss := j.total_loss + lossOf t.issued_weight rw
          loss_percentage := lossPercentage
            (j.total_loss + lossOf t.issued_weight rw) j.initial_weight
          current_worker_id := none
          status := JobStatus.pending_assignment } := by
  unfold complete_task_body
  rw [ht]
  dsimp only
  rw [if_neg (not_lt.mpr hle)]
  simp only [jobFor] at hj ⊢
  rw [hj]
  dsimp only
  refine ⟨_, _, rfl, rfl, ?_⟩
  have hmap : ((db.jobs.map (fun k =>
      if k.id == t.job_id then
        { k with total_loss := j.total_loss + lossOf t.issued_weight rw
                 loss_percentage := lossPercentage
                   (j.total_loss + lossOf t.issued_weight rw) j.initial_weight
                 current_worker_id := none
                 status := JobStatus.pending_assignment }
      else k)).filter (fun k => k.id == t.job_id)).head? =
      ((db.jobs.filter (fun k => k.id == t.job_id)).head?).map (fun k =>
      if k.id == t.job_id then
        { k with total_loss := j.total_loss + lossOf t.issued_weight rw
                 loss_percentage := lossPercentage
                   (j.total_loss + lossOf t.issued_weight rw) j.initial_weight
                 current_worker_id := none
                 status := JobStatus.pending_assignment }
      else k) := by
    apply head_filter_map
    intro x
    by_cases hx : x.id == t.job_id <;> simp [hx]
  have hjid : (j.id == t.job_id) = true := by
    have h2 : j.id = t.job_id := jobFor_id (by simpa [jobFor] using hj)
    simp [h2]
  rw [hmap, hj]
  simp only [Option.map_some']
  rw [if_pos hjid]

/-- C4: a successful completion over an in_progress transaction with
issued weight I and returned weight R, 0 < R ≤ I: the stored loss is
I - R, the stored transaction loss percentage is (I - R) / I * 100,
the transaction becomes completed; the owning job gains exactly that
loss, its percentage becomes total_loss / initial_weight * 100, its
worker is cleared and it becomes pending_assignment (Scenario A is
the witness: initial 10.000, issued 10.000, returned 9.500). -/
theorem C4_complete_task_success (db : DB) (uid tid : ℤ) (rw : ℚ)
    (notes : Option String) (t : Transaction) (j : Job)
    (ht : transFor db tid uid = some t)
    (_hst : t.status = TransStatus.in_progress)
    (hj : jobFor db t.job_id = some j)
    (hjw : 0 < j.initial_weight)
    (h0 : 0 < rw) (hle : rw ≤ t.issued_weight) :
    ∃ tr db', complete_task_body uid ⟨tid, rw, notes⟩ db = .ok (tr, db') ∧
      tr.loss = some (t.issued_weight - rw) ∧
      tr.loss_percentage = some ((t.issued_weight - rw) / t.issued_weight * 100) ∧
      tr.status = TransStatus.completed ∧
      ∃ j', jobFor db' t.job_id = some j' ∧
        j'.total_loss = j.total_loss + (t.issued_weight - rw) ∧
        j'.loss_percentage =
          (j.total_loss + (t.issued_weight - rw)) / j.initial_weight * 100 ∧
        j'.current_worker_id = none ∧
        j'.status = JobStatus.pending_assignment := by
  have hI : 0 < t.issued_weight := lt_of_lt_of_le h0 hle
  obtain ⟨tr, db', heq, htr, hjob⟩ :=
    complete_body_spec db uid tid rw notes t j ht hj hle
  refine ⟨tr, db', heq, ?_, ?_, ?_, ?_⟩
  · rw [htr]; simp [completeTrans, lossOf]
  · rw [htr]; simp [completeTrans, lossOf, lossPercentage, if_pos hI]
  · rw [htr]; simp [completeTrans]
  · exact ⟨_, hjob, by simp [lossOf], by simp [lossOf, lossPercentage, if_pos hjw],
      rfl, rfl⟩

/-- C4 witness: Scenario A at its concrete store. -/
theorem C4_complete_task_success_witness :
    transFor dbA2 1 5 = some tA ∧ jobFor dbA2 tA.job_id = some jA ∧
    (∃ tr db', complete_task_body 5 ⟨1, 19 / 2, none⟩ dbA2 = .ok (tr, db') ∧
      tr.loss = some (tA.issued_weight - 19 / 2) ∧
      tr.loss_percentage =
        some ((tA.issued_weight - 19 / 2) / tA.issued_weight * 100) ∧
      tr.status = TransStatus.completed ∧
      ∃ j', jobFor db' tA.job_id = some j' ∧
        j'.total_loss = jA.total_loss + (tA.issued_weight - 19 / 2) ∧
        j'.loss_percentage =
          (jA.total_loss + (tA.issued_weight - 19 / 2)) / jA.initial_weight * 100 ∧
        j'.current_worker_id = none ∧
        j'.status = JobStatus.pending_assignment) :=
  ⟨by norm_num [transFor, dbA2, dbA1, db0, afterOk, assign_job_body, jobFor,
      create_job_body, tA],
   by norm_num [jobFor, dbA2, dbA1, db0, afterOk, assign_job_body,
      create_job_body, jA, tA],
   C4_complete_task_success dbA2 5 1 (19 / 2) none tA jA
     (by norm_num [transFor, dbA2, dbA1, db0, afterOk, assign_job_body, jobFor,
        create_job_body, tA])
     rfl
     (by norm_num [jobFor, dbA2, dbA1, db0, afterOk, assign_job_body,
        create_job_body, jA, tA])
     (by norm_num [jA]) (by norm_num) (by norm_num [tA])⟩

end Jewelry

namespace Jewelry

/-- C6: the completion body answers NotFoundError whenever no stored
transaction has the given id AND the calling worker (so completing
another worker's transaction id yields NotFoundError whether or not
the id exists); input validation answers ValidationError for a
non-positive returned weight, and the body answers ValidationError
when the returned weight exceeds the issued weight; for an owned
in_progress transaction with raw returned weight in (0, issued] (the
stored issued weight being 3-decimal fixed) validation passes and
the completion succeeds. -/
theorem C6_completion_guards :
    (∀ (db : DB) (uid : ℤ) (c : Completion),
      (∀ t ∈ db.transactions, ¬(t.id = c.transaction_id ∧ t.worker_id = uid)) →
      complete_task_body uid c db =
        .error ⟨404, "Transaction not found or not assigned to you"⟩) ∧
    (∀ (db : DB) (uid : ℤ) (c : Completion) (t : Transaction),
      transFor db c.transaction_id uid = some t →
      t.issued_weight < c.returned_weight →
      complete_task_body uid c db =
        .error ⟨400, "Returned weight cannot be greater than issued weight"⟩) ∧
    (∀ w : ℚ, w ≤ 0 →
      validateWeight w = .error ⟨422, "Weight must be positive"⟩) ∧
    (∀ (db : DB) (uid tid : ℤ) (raw : ℚ) (notes : Option String)
        (t : Transaction) (j : Job),
      transFor db tid uid = some t →
      t.status = TransStatus.in_progress →
      jobFor db t.job_id = some j →
      0 < raw → raw ≤ t.issued_weight →
      round3 t.issued_weight = t.issued_weight →
      ∃ rw, validateWeight raw = .ok rw ∧
        (complete_task_body uid ⟨tid, rw, notes⟩ db).isOk) := by
  refine ⟨?_, ?_, ?_, ?_⟩
  · intro db uid c hnone
    have hfil : db.transactions.filter
        (fun u => u.id == c.transaction_id && u.worker_id == uid) = [] := by
      apply List.filter_eq_nil_iff.mpr
      intro a ha
      have := hnone a ha
      simp only [Bool.and_eq_true, beq_iff_eq]
      tauto
    have htf : transFor db c.transaction_id uid = none := by
      simp [transFor, hfil]
    unfold complete_task_body
    rw [htf]
  · intro db uid c t ht hlt
    unfold complete_task_body
    rw [ht]
    dsimp only
    rw [if_pos hlt]
  · intro w hw
    simp [validateWeight, if_pos hw]
  · intro db uid tid raw notes t j ht hst hj hraw hle hfix
    refine ⟨round3 raw, ?_, ?_⟩
    · simp [validateWeight, not_le.mpr hraw]
    · have hle2 : round3 raw ≤ t.issued_weight := by
        calc round3 raw ≤ round3 t.issued_weight := round3_mono hle
        _ = t.issued_weight := hfix
      obtain ⟨tr, db', heq, -, -⟩ :=
        complete_body_spec db uid tid (round3 raw) notes t j ht hj hle2
      simp [heq, Except.isOk, Except.toBool]

/-- C6 witness: worker 5 completing the missing id 1 on the empty
store gets NotFoundError; an over-weight completion on Scenario A's
store gets ValidationError; raw weight -1 fails validation; worker 5
completing its own live transaction with raw weight 9.5 succeeds. -/
theorem C6_completion_guards_witness :
    (complete_task_body 5 ⟨1, 5, none⟩ db0 =
      .error ⟨404, "Transaction not found or not assigned to you"⟩) ∧
    (complete_task_body 5 ⟨1, 11, none⟩ dbA2 =
      .error ⟨400, "Returned weight cannot be greater than issued weight"⟩) ∧
    (validateWeight (-1) = .error ⟨422, "Weight must be positive"⟩) ∧
    (∃ rw, validateWeight (19 / 2) = .ok rw ∧
      (complete_task_body 5 ⟨1, rw, none⟩ dbA2).isOk) := by
  refine ⟨?_, ?_, ?_, ?_⟩
  · exact C6_completion_guards.1 db0 5 ⟨1, 5, none⟩ (by simp [db0])
  · exact C6_completion_guards.2.1 dbA2 5 ⟨1, 11, none⟩ tA
      (by norm_num [transFor, dbA2, dbA1, db0, afterOk, assign_job_body,
        jobFor, create_job_body, tA])
      (by norm_num [tA])
  · exact C6_completion_guards.2.2.1 (-1) (by norm_num)
  · exact C6_completion_guards.2.2.2 dbA2 5 1 (19 / 2) none tA jA
      (by norm_num [transFor, dbA2, dbA1, db0, afterOk, assign_job_body,
        jobFor, create_job_body, tA])
      rfl
      (by norm_num [jobFor, dbA2, dbA1, db0, afterOk, assign_job_body,
        create_job_body, jA, tA])
      (by norm_num) (by norm_num [tA])
      (by norm_num [tA, round3, round_eq])

end Jewelry

namespace Jewelry

/-- C5 counterexample: in the Scenario A store every job satisfies
the worker/status invariant, yet the administrative update that sets
status completed leaves the worker id in place: the updated job is
completed with current_worker_id still set, violating the iff. -/
theorem C5_admin_update_breaks_invariant :
    (∀ j ∈ dbA2.jobs, jobInv j) ∧
    (∃ j' db', update_job_body 1 updC5 dbA2 = .ok (j', db') ∧
      j' ∈ db'.jobs ∧ j'.status = JobStatus.completed ∧
      j'.current_worker_id = some 5 ∧ ¬ jobInv j') := by
  constructor
  · intro j hj
    have : j = jA := by
      revert hj
      norm_num [create_job_body, assign_job_body, complete_task_body, update_job_body,
        applyJobUpdate, jobFor, transFor, lossOf, lossPercentage,
        completeTrans, validateWeight, afterOk, db0, dbA1, dbA2, dbA3, db9,
        db10, j9, j10, t10, jA, jA0, tA, trA3, updC5, jobInv, List.find?,
        Except.map]
    rw [this]
    simp [jobInv, jA]
  · refine ⟨{ jA with status := JobStatus.completed },
      { dbA2 with jobs := [{ jA with status := JobStatus.completed }] },
      ?_, ?_, rfl, rfl, ?_⟩
    · norm_num [create_job_body, assign_job_body, complete_task_body, update_job_body,
        applyJobUpdate, jobFor, transFor, lossOf, lossPercentage,
        completeTrans, validateWeight, afterOk, db0, dbA1, dbA2, dbA3, db9,
        db10, j9, j10, t10, jA, jA0, tA, trA3, updC5, jobInv, List.find?,
        Except.map]
      intro h
      simp at h
    · simp
    · simp [jobInv, jA]

/-- C5 (amended): the three lifecycle operations — create, assign,
complete-task — do preserve the invariant that current_worker_id is
non-null iff the job is in_progress; the administrative update does
not (see the counterexample). -/
theorem C5_core_ops_preserve_invariant :
    (∀ (uid : ℤ) (jc : JobCreate) (db : DB) (j0 : Job) (db' : DB),
      (∀ j ∈ db.jobs, jobInv j) →
      create_job_body uid jc db = .ok (j0, db') →
      ∀ j ∈ db'.jobs, jobInv j) ∧
    (∀ (jobId : ℤ) (a : JobAssignment) (db : DB) (tr : Transaction) (db' : DB),
      (∀ j ∈ db.jobs, jobInv j) →
      assign_job_body jobId a db = .ok (tr, db') →
      ∀ j ∈ db'.jobs, jobInv j) ∧
    (∀ (uid : ℤ) (c : Completion) (db : DB) (tr : Transaction) (db' : DB),
      (∀ j ∈ db.jobs, jobInv j) →
      complete_task_body uid c db = .ok (tr, db') →
      ∀ j ∈ db'.jobs, jobInv j) := by
  refine ⟨?_, ?_, ?_⟩
  · intro uid jc db j0 db' hinv hok
    unfold create_job_body at hok
    simp only [Except.ok.injEq, Prod.mk.injEq] at hok
    obtain ⟨-, h2⟩ := hok
    subst h2
    intro j hj
    simp only [List.mem_append, List.mem_singleton] at hj
    rcases hj with hj | hj
    · exact hinv j hj
    · subst hj
      refine iff_of_false ?_ ?_
      · simp
      · intro h
        exact JobStatus.noConfusion h
  · intro jobId a db tr db' hinv hok
    cases hjf : jobFor db jobId with
    | none =>
      unfold assign_job_body at hok
      rw [hjf] at hok
      exact absurd hok (by simp)
    | some k =>
      unfold assign_job_body at hok
      rw [hjf] at hok
      simp only [Except.ok.injEq, Prod.mk.injEq] at hok
      obtain ⟨-, h2⟩ := hok
      subst h2
      intro j hj
      simp only [List.mem_map] at hj
      obtain ⟨k2, hk2, hj⟩ := hj
      subst hj
      by_cases hid : (k2.id == jobId) = true
      · simp [hid, jobInv]
      · simp only [hid, if_neg]
        simpa using hinv k2 hk2
  · intro uid c db tr db' hinv hok
    cases htf : transFor db c.transaction_id uid with
    | none =>
      unfold complete_task_body at hok
      rw [htf] at hok
      exact absurd hok (by simp)
    | some t =>
      unfold complete_task_body at hok
      rw [htf] at hok
      dsimp only at hok
      by_cases hlt : t.issued_weight < c.returned_weight
      · rw [if_pos hlt] at hok
        exact absurd hok (by simp)
      · rw [if_neg hlt] at hok
        cases hjf : (List.filter (fun j => j.id == t.job_id) db.jobs).head? with
        | none =>
          rw [show jobFor { db with transactions := db.transactions.map (fun u =>
            if u.id == c.transaction_id then
              completeTrans c (lossOf t.issued_weight c.returned_weight)
                (lossPercentage (lossOf t.issued_weight c.returned_weight)
                  t.issued_weight) db.now u
            else u) } t.job_id = none from by simpa [jobFor] using hjf] at hok
          exact absurd hok (by simp)
        | some k =>
          rw [show jobFor { db with transactions := db.transactions.map (fun u =>
            if u.id == c.transaction_id then
              completeTrans c (lossOf t.issued_weight c.returned_weight)
                (lossPercentage (lossOf t.issued_weight c.returned_weight)
                  t.issued_weight) db.now u
            else u) } t.job_id = some k from by simpa [jobFor] using hjf] at hok
          simp only [Except.ok.injEq, Prod.mk.injEq] at hok
          obtain ⟨-, h2⟩ := hok
          subst h2
          intro j hj
          simp only [List.mem_map] at hj
          obtain ⟨k2, hk2, hj⟩ := hj
          subst hj
          by_cases hid : (k2.id == t.job_id) = true
          · simp [hid, jobInv]
          · simp only [hid, if_neg]
            simpa using hinv k2 hk2

/-- C5 witness: the invariant holds along the whole of Scenario A:
after creation, after assignment, after completion. -/
theorem C5_core_ops_preserve_invariant_witness :
    (∀ j ∈ dbA1.jobs, jobInv j) ∧ (∀ j ∈ dbA2.jobs, jobInv j) ∧
    (∀ j ∈ dbA3.jobs, jobInv j) :=
  ⟨C5_core_ops_preserve_invariant.1 1 ⟨"D-1", "ring", 10, none⟩ db0 jA0 dbA1
      (by simp [db0])
      (by norm_num [create_job_body, assign_job_body, complete_task_body, update_job_body,
        applyJobUpdate, jobFor, transFor, lossOf, lossPercentage,
        completeTrans, validateWeight, afterOk, db0, dbA1, dbA2, dbA3, db9,
        db10, j9, j10, t10, jA, jA0, tA, trA3, updC5, jobInv, List.find?,
        Except.map]),
   C5_core_ops_preserve_invariant.2.1 1 ⟨5, Stage.casting, 10⟩ dbA1 tA dbA2
      (by norm_num [create_job_body, assign_job_body, complete_task_body, update_job_body,
        applyJobUpdate, jobFor, transFor, lossOf, lossPercentage,
        completeTrans, validateWeight, afterOk, db0, dbA1, dbA2, dbA3, db9,
        db10, j9, j10, t10, jA, jA0, tA, trA3, updC5, jobInv, List.find?,
        Except.map] <;> decide)
      (by norm_num [create_job_body, assign_job_body, complete_task_body, update_job_body,
        applyJobUpdate, jobFor, transFor, lossOf, lossPercentage,
        completeTrans, validateWeight, afterOk, db0, dbA1, dbA2, dbA3, db9,
        db10, j9, j10, t10, jA, jA0, tA, trA3, updC5, jobInv, List.find?,
        Except.map]),
   C5_core_ops_preserve_invariant.2.2 5 ⟨1, 19 / 2, none⟩ dbA2 trA3 dbA3
      (by norm_num [create_job_body, assign_job_body, complete_task_body, update_job_body,
        applyJobUpdate, jobFor, transFor, lossOf, lossPercentage,
        completeTrans, validateWeight, afterOk, db0, dbA1, dbA2, dbA3, db9,
        db10, j9, j10, t10, jA, jA0, tA, trA3, updC5, jobInv, List.find?,
        Except.map])
      (by norm_num [create_job_body, assign_job_body, complete_task_body, update_job_body,
        applyJobUpdate, jobFor, transFor, lossOf, lossPercentage,
        completeTrans, validateWeight, afterOk, db0, dbA1, dbA2, dbA3, db9,
        db10, j9, j10, t10, jA, jA0, tA, trA3, updC5, jobInv, List.find?,
        Except.map])⟩

end Jewelry

namespace Jewelry

/-- C2 counterexample: in the reachable Scenario A store job 1 is
in_progress with one live transaction, yet assigning it again
succeeds — no status check — leaving job 1 in_progress with two live
in_progress transactions held by workers 5 and 6. -/
theorem C2_assign_in_progress_succeeds :
    (jobFor dbA2 1).map Job.status = some JobStatus.in_progress ∧
    dbA2.transactions.map (fun t => (t.worker_id, t.status)) =
      [(5, TransStatus.in_progress)] ∧
    (assign_job_body 1 ⟨6, Stage.filing, 5⟩ dbA2).map (fun p =>
        (p.1.status,
         p.2.transactions.map (fun t => (t.worker_id, t.status)),
         (jobFor p.2 1).map Job.status)) =
      .ok (TransStatus.in_progress,
        [(5, TransStatus.in_progress), (6, TransStatus.in_progress)],
        some JobStatus.in_progress) := by
  refine ⟨?_, ?_, ?_⟩ <;>
    norm_num [create_job_body, assign_job_body, complete_task_body, update_job_body,
      applyJobUpdate, jobFor, transFor, lossOf, lossPercentage,
      completeTrans, validateWeight, catchAll, httpDetail, afterOk, db0,
      dbA1, dbA2, dbA3, dbA4, db9, db10, j9, j10, t10, jA, jA0, tA, trA3,
      List.find?, Except.map]

/-- C2 (amended): assign_job checks only that the job exists — it
performs no job-status precondition — so assignment succeeds on a job
of any status, sets it in_progress with the assigned worker and adds
a live transaction; in particular an already-in_progress job can be
assigned again. -/
theorem C2_assign_ignores_status (db : DB) (jobId : ℤ) (a : JobAssignment)
    (j : Job) (hj : jobFor db jobId = some j) :
    ∃ t db', assign_job_body jobId a db = .ok (t, db') ∧
      t.status = TransStatus.in_progress ∧
      t.worker_id = a.worker_id ∧
      t.job_id = jobId ∧
      db'.transactions = db.transactions ++ [t] ∧
      jobFor db' jobId = some
        { j with status := JobStatus.in_progress
                 current_stage := some a.stage
                 current_worker_id := some a.worker_id } := by
  unfold assign_job_body
  rw [hj]
  dsimp only
  refine ⟨_, _, rfl, rfl, rfl, rfl, rfl, ?_⟩
  have hmap : ((db.jobs.map (fun k =>
      if k.id == jobId then
        { k with status := JobStatus.in_progress
                 current_stage := some a.stage
                 current_worker_id := some a.worker_id }
      else k)).filter (fun k => k.id == jobId)).head? =
      ((db.jobs.filter (fun k => k.id == jobId)).head?).map (fun k =>
      if k.id == jobId then
        { k with status := JobStatus.in_progress
                 current_stage := some a.stage
                 current_worker_id := some a.worker_id }
      else k) := by
    apply head_filter_map
    intro x
    by_cases hx : x.id == jobId <;> simp [hx]
  have hjid : (j.id == jobId) = true := by
    have h2 : j.id = jobId := jobFor_id hj
    simp [h2]
  simp only [jobFor] at hj ⊢
  rw [hmap, hj]
  simp only [Option.map_some']
  rw [if_pos hjid]

/-- C2 witness: applied to Scenario A's store, whose job 1 is
in_progress. -/
theorem C2_assign_ignores_status_witness :
    jobFor dbA2 1 = some jA ∧
    (∃ t db', assign_job_body 1 ⟨6, Stage.filing, 5⟩ dbA2 = .ok (t, db') ∧
      t.status = TransStatus.in_progress ∧
      t.worker_id = (6 : ℤ) ∧
      t.job_id = (1 : ℤ) ∧
      db'.transactions = dbA2.transactions ++ [t] ∧
      jobFor db' 1 = some
        { jA with status := JobStatus.in_progress
                  current_stage := some Stage.filing
                  current_worker_id := some 6 }) :=
  ⟨by norm_num [create_job_body, assign_job_body, complete_task_body, update_job_body,
      applyJobUpdate, jobFor, transFor, lossOf, lossPercentage,
      completeTrans, validateWeight, catchAll, httpDetail, afterOk, db0,
      dbA1, dbA2, dbA3, dbA4, db9, db10, j9, j10, t10, jA, jA0, tA, trA3,
      List.find?, Except.map],
   C2_assign_ignores_status dbA2 1 ⟨6, Stage.filing, 5⟩ jA
     (by norm_num [create_job_body, assign_job_body, complete_task_body, update_job_body,
      applyJobUpdate, jobFor, transFor, lossOf, lossPercentage,
      completeTrans, validateWeight, catchAll, httpDetail, afterOk, db0,
      dbA1, dbA2, dbA3, dbA4, db9, db10, j9, j10, t10, jA, jA0, tA, trA3,
      List.find?, Except.map])⟩

/-- C1: the completion query is not scoped to in_progress, so a
second completion of the already-completed transaction 1 does not
fail with NotFoundError: it succeeds, overwrites the stored returned
timestamp (0 becomes 1) and adds the loss to the job a second time
(total_loss 0.5 becomes 1, loss percentage 5 becomes 10). -/
theorem C1_double_completion_not_guarded :
    dbA3.transactions.map (fun t => (t.status, t.returned_at)) =
      [(TransStatus.completed, some 0)] ∧
    (jobFor dbA3 1).map (fun j => (j.total_loss, j.loss_percentage)) =
      some (1 / 2, 5) ∧
    (complete_task_body 5 ⟨1, 19 / 2, none⟩ dbA4).map (fun p =>
        (p.1.status, p.1.returned_at,
         (jobFor p.2 1).map (fun j => (j.total_loss, j.loss_percentage)))) =
      .ok (TransStatus.completed, some 1, some (1, 10)) := by
  refine ⟨?_, ?_, ?_⟩ <;>
    norm_num [create_job_body, assign_job_body, complete_task_body, update_job_body,
      applyJobUpdate, jobFor, transFor, lossOf, lossPercentage,
      completeTrans, validateWeight, catchAll, httpDetail, afterOk, db0,
      dbA1, dbA2, dbA3, dbA4, db9, db10, j9, j10, t10, jA, jA0, tA, trA3,
      List.find?, Except.map]

end Jewelry

namespace Jewelry

/-- C3 counterexample: with an absent job id the caller of assignJob
observes the generic internal-failure signal 500, not NotFoundError;
with returned weight greater than issued weight the caller of
completeTask observes 500, not ValidationError — the catch-all
re-raises the typed errors as HTTPException(500, str(e)). -/
theorem C3_typed_errors_surface_as_500 :
    assign_job Role.owner 99 5 Stage.casting 1 db0 =
      .error ⟨500, "404: Job not found"⟩ ∧
    complete_task Role.caster 5 1 11 none dbA2 =
      .error ⟨500, "400: Returned weight cannot be greater than issued weight"⟩ := by
  constructor <;>
  · norm_num [assign_job, complete_task, create_job_body, assign_job_body, complete_task_body, update_job_body,
      applyJobUpdate, jobFor, transFor, lossOf, lossPercentage,
      completeTrans, validateWeight, catchAll, httpDetail, afterOk, db0,
      dbA1, dbA2, dbA3, dbA4, db9, db10, j9, j10, t10, jA, jA0, tA, trA3,
      round3, round_eq, List.find?, Except.map]
    rfl

/-- C3 (amended): the four error kinds are detected inside the
handler bodies with their own status signals — an absent job id
raises NotFoundError in the assignment body, an over-weight return
raises ValidationError in the completion body — but the catch-all
wrapper of each endpoint re-raises every body error as the generic
internal-failure signal 500, preserving the original kind and detail
only inside the message string. -/
theorem C3_kinds_detected_then_wrapped :
    (∀ (db : DB) (jobId wk : ℤ) (st : Stage) (w w' : ℚ),
      validateWeight w = .ok w' →
      jobFor db jobId = none →
      assign_job_body jobId ⟨wk, st, w'⟩ db =
        .error ⟨404, "Job not found"⟩ ∧
      assign_job Role.owner jobId wk st w db =
        .error ⟨500, httpDetail ⟨404, "Job not found"⟩⟩) ∧
    (∀ (db : DB) (uid tid : ℤ) (w w' : ℚ) (notes : Option String)
        (t : Transaction),
      validateWeight w = .ok w' →
      transFor db tid uid = some t →
      t.issued_weight < w' →
      complete_task_body uid ⟨tid, w', notes⟩ db =
        .error ⟨400, "Returned weight cannot be greater than issued weight"⟩ ∧
      complete_task Role.caster uid tid w notes db =
        .error ⟨500,
          httpDetail ⟨400, "Returned weight cannot be greater than issued weight"⟩⟩) := by
  constructor
  · intro db jobId wk st w w' hw hjf
    have hbody : assign_job_body jobId ⟨wk, st, w'⟩ db =
        .error ⟨404, "Job not found"⟩ := by
      unfold assign_job_body
      rw [hjf]
    refine ⟨hbody, ?_⟩
    unfold assign_job
    rw [hw]
    dsimp only
    rw [if_neg (by simp), hbody]
    rfl
  · intro db uid tid w w' notes t hw ht hlt
    have hbody : complete_task_body uid ⟨tid, w', notes⟩ db =
        .error ⟨400, "Returned weight cannot be greater than issued weight"⟩ := by
      unfold complete_task_body
      rw [ht]
      dsimp only
      rw [if_pos hlt]
    refine ⟨hbody, ?_⟩
    unfold complete_task
    rw [hw]
    dsimp only
    rw [if_neg (by simp), hbody]
    rfl

/-- C3 witness: the wrapped-to-500 behaviour at the concrete inputs
of the counterexample, derived by applying the amended theorem. -/
theorem C3_kinds_detected_then_wrapped_witness :
    (assign_job_body 99 ⟨5, Stage.casting, 1⟩ db0 =
        .error ⟨404, "Job not found"⟩ ∧
      assign_job Role.owner 99 5 Stage.casting 1 db0 =
        .error ⟨500, httpDetail ⟨404, "Job not found"⟩⟩) ∧
    (complete_task_body 5 ⟨1, 11, none⟩ dbA2 =
        .error ⟨400, "Returned weight cannot be greater than issued weight"⟩ ∧
      complete_task Role.caster 5 1 11 none dbA2 =
        .error ⟨500,
          httpDetail ⟨400, "Returned weight cannot be greater than issued weight"⟩⟩) :=
  ⟨C3_kinds_detected_then_wrapped.1 db0 99 5 Stage.casting 1 1
      (by norm_num [validateWeight, round3, round_eq])
      (by simp [jobFor, db0]),
   C3_kinds_detected_then_wrapped.2 dbA2 5 1 11 11 none tA
      (by norm_num [validateWeight, round3, round_eq])
      (by norm_num [create_job_body, assign_job_body, complete_task_body, update_job_body,
      applyJobUpdate, jobFor, transFor, lossOf, lossPercentage,
      completeTrans, validateWeight, catchAll, httpDetail, afterOk, db0,
      dbA1, dbA2, dbA3, dbA4, db9, db10, j9, j10, t10, jA, jA0, tA, trA3,
      round3, round_eq, List.find?, Except.map])
      (by norm_num [tA])⟩

end Jewelry

namespace Jewelry

/-- An entry found by statsFor carries the looked-up worker id. -/
theorem statsFor_key {w : ℤ} {l : List WStats} {s : WStats}
    (h : statsFor w l = some s) : s.worker_id = w := by
  unfold statsFor at h
  have hm : s ∈ l.filter (fun u => u.worker_id == w) :=
    List.mem_of_mem_head? (by simp [h])
  simpa using (List.mem_filter.mp hm).2

/-- An entry found by statsFor is an entry of the list. -/
theorem mem_of_statsFor {w : ℤ} {l : List WStats} {s : WStats}
    (h : statsFor w l = some s) : s ∈ l := by
  unfold statsFor at h
  have hm : s ∈ l.filter (fun u => u.worker_id == w) :=
    List.mem_of_mem_head? (by simp [h])
  exact (List.mem_filter.mp hm).1

/-- The dict lookup misses exactly when the membership test of the
aggregation loop fails. -/
theorem statsFor_none_iff (w : ℤ) (l : List WStats) :
    statsFor w l = none ↔ l.any (fun s => s.worker_id == w) = false := by
  unfold statsFor
  rw [List.head?_eq_none_iff, List.filter_eq_nil_iff, List.any_eq_false]

/-- One loop iteration, seen through the dict lookup: a transaction
of another worker leaves the entry alone; a transaction of worker w
increments the existing entry or installs the initial one (a
completed row always carries its loss; the model reads it with
default 0, as the loop reads the loss column of completed rows). -/
theorem statsFor_bump (db : DB) (t : Transaction) (w : ℤ) (acc : List WStats) :
    statsFor w (bump db acc t) =
      if t.worker_id = w then
        match statsFor w acc with
        | some s => some { s with total_jobs := s.total_jobs + 1
                                  total_loss := s.total_loss + t.loss.getD 0 }
        | none => some ⟨w, fullNameOf db w, roleOf db w, 1, t.loss.getD 0, 0⟩
      else statsFor w acc := by
  unfold bump
  by_cases hany : acc.any (fun s => s.worker_id == t.worker_id) = true
  · rw [if_pos hany]
    have hmap : statsFor w (acc.map (fun s =>
        if s.worker_id == t.worker_id then
          { s with total_jobs := s.total_jobs + 1
                   total_loss := s.total_loss + t.loss.getD 0 }
        else s)) = (statsFor w acc).map (fun s =>
        if s.worker_id == t.worker_id then
          { s with total_jobs := s.total_jobs + 1
                   total_loss := s.total_loss + t.loss.getD 0 }
        else s) := by
      unfold statsFor
      apply head_filter_map
      intro x
      by_cases hx : (x.worker_id == t.worker_id) = true <;> simp [hx]
    rw [hmap]
    by_cases hw : t.worker_id = w
    · rw [if_pos hw]
      subst hw
      cases hs : statsFor t.worker_id acc with
      | none =>
        rw [(statsFor_none_iff t.worker_id acc).mp hs] at hany
        exact absurd hany (by simp)
      | some s =>
        have hsw : (s.worker_id == t.worker_id) = true := by
          simp [statsFor_key hs]
        simp only [Option.map_some']
        rw [if_pos hsw]
    · rw [if_neg hw]
      cases hs : statsFor w acc with
      | none => rfl
      | some s =>
        have hsw : (s.worker_id == t.worker_id) = false := by
          have := statsFor_key hs
          simp only [beq_eq_false_iff_ne, ne_eq, this]
          intro h
          exact hw h.symm
        simp only [Option.map_some']
        rw [if_neg (by rw [hsw]; exact Bool.false_ne_true)]
  · rw [if_neg hany]
    have hnone : statsFor t.worker_id acc = none := by
      rw [statsFor_none_iff]
      exact Bool.eq_false_iff.mpr hany
    unfold statsFor
    rw [List.filter_append]
    by_cases hw : t.worker_id = w
    · subst hw
      rw [show List.filter (fun s => s.worker_id == t.worker_id) acc = [] from
        List.filter_eq_nil_iff.mpr (by
          have h2 := (statsFor_none_iff t.worker_id acc).mp hnone
          rw [List.any_eq_false] at h2
          exact h2)]
      simp [hnone]
    · have hfil : List.filter (fun s => s.worker_id == w)
          [(⟨t.worker_id, fullNameOf db t.worker_id, roleOf db t.worker_id,
            1, t.loss.getD 0, 0⟩ : WStats)] = [] := by
        simp [hw]
      rw [hfil, List.append_nil, if_neg hw]

end Jewelry

namespace Jewelry

/-- The aggregation fold, seen through the dict lookup: an existing
accumulator entry for w gains the count and summed loss of w's
transactions; a fresh entry is created exactly when w owns at least
one transaction of the list. -/
theorem statsFor_foldl (db : DB) (ts : List Transaction) :
    ∀ (acc : List WStats) (w : ℤ),
      statsFor w (ts.foldl (bump db) acc) =
        match statsFor w acc with
        | some s => some { s with total_jobs := s.total_jobs + countW ts w
                                  total_loss := s.total_loss + sumW ts w }
        | none =>
          if countW ts w = 0 then none
          else some ⟨w, fullNameOf db w, roleOf db w, countW ts w, sumW ts w, 0⟩ := by
  induction ts with
  | nil =>
    intro acc w
    simp only [List.foldl_nil, countW, List.countP_nil, sumW,
      List.filter_nil, List.map_nil, List.sum_nil]
    cases hs : statsFor w acc with
    | none => rfl
    | some s =>
      cases s
      simp
  | cons t ts ih =>
    intro acc w
    rw [List.foldl_cons, ih (bump db acc t) w, statsFor_bump]
    by_cases hw : t.worker_id = w
    · rw [if_pos hw]
      have hcount : countW (t :: ts) w = countW ts w + 1 := by
        simp [countW, List.countP_cons, hw]
      have hsum : sumW (t :: ts) w = t.loss.getD 0 + sumW ts w := by
        simp [sumW, List.filter_cons, hw]
      cases hs : statsFor w acc with
      | none =>
        dsimp only
        rw [hcount, hsum, if_neg (by omega)]
        simp [add_comm, add_assoc, add_left_comm]
      | some s =>
        dsimp only
        rw [hcount, hsum]
        simp [add_comm, add_assoc, add_left_comm]
    · rw [if_neg hw]
      have hcount : countW (t :: ts) w = countW ts w := by
        simp [countW, List.countP_cons, hw]
      have hsum : sumW (t :: ts) w = sumW ts w := by
        simp [sumW, List.filter_cons, hw]
      rw [hcount, hsum]

end Jewelry

namespace Jewelry

/-- One loop iteration keeps the worker keys of the accumulator free
of duplicates: in-place update keeps the keys, and the fresh entry is
appended only when its key is absent. -/
theorem wkeys_nodup_bump (db : DB) (t : Transaction) (acc : List WStats)
    (h : (wkeys acc).Nodup) : (wkeys (bump db acc t)).Nodup := by
  unfold bump
  by_cases hany : acc.any (fun s => s.worker_id == t.worker_id) = true
  · rw [if_pos hany]
    have : wkeys (acc.map (fun s =>
        if s.worker_id == t.worker_id then
          { s with total_jobs := s.total_jobs + 1
                   total_loss := s.total_loss + t.loss.getD 0 }
        else s)) = wkeys acc := by
      unfold wkeys
      rw [List.map_map]
      apply List.map_congr_left
      intro a _
      by_cases ha : a.worker_id = t.worker_id <;> simp [ha]
    rw [this]
    exact h
  · rw [if_neg hany]
    unfold wkeys
    rw [List.map_append, List.nodup_append]
    refine ⟨h, List.nodup_singleton _, ?_⟩
    intro x hx hx2
    simp only [List.map_cons, List.map_nil, List.mem_singleton] at hx2
    subst hx2
    apply hany
    rw [List.any_eq_true]
    simp only [List.mem_map] at hx
    obtain ⟨u, hu, hux⟩ := hx
    exact ⟨u, hu, by simp [hux]⟩

/-- The keys of the aggregation fold's result are free of
duplicates. -/
theorem wkeys_nodup_foldl (db : DB) (ts : List Transaction) :
    ∀ acc : List WStats, (wkeys acc).Nodup →
      (wkeys (ts.foldl (bump db) acc)).Nodup := by
  induction ts with
  | nil => intro acc h; simpa using h
  | cons t ts ih =>
    intro acc h
    rw [List.foldl_cons]
    exact ih _ (wkeys_nodup_bump db t acc h)

/-- With duplicate-free keys, the dict lookup finds exactly the
member entry with the looked-up worker id. -/
theorem statsFor_of_mem {l : List WStats} {s : WStats}
    (hnd : (wkeys l).Nodup) (hs : s ∈ l) : statsFor s.worker_id l = some s := by
  induction l with
  | nil => cases hs
  | cons a l ih =>
    rw [List.mem_cons] at hs
    unfold wkeys at hnd
    rw [List.map_cons, List.nodup_cons] at hnd
    by_cases ha : (a.worker_id == s.worker_id) = true
    · have haw : a.worker_id = s.worker_id := by simpa using ha
      have : s = a := by
        rcases hs with hs | hs
        · exact hs
        · exact absurd (haw ▸ List.mem_map_of_mem WStats.worker_id hs) hnd.1
      subst this
      unfold statsFor
      rw [List.filter_cons, if_pos (by simp)]
      rfl
    · have hsa : s ≠ a := by
        intro h2
        subst h2
        simp at ha
      have hsl : s ∈ l := hs.resolve_left hsa
      unfold statsFor
      rw [List.filter_cons, if_neg (by simpa using ha)]
      exact ih hnd.2 hsl

end Jewelry

namespace Jewelry

/-- C7: the worker performance report groups exactly the completed
transactions by worker id: an entry for worker w exists iff some
completed transaction belongs to w; each entry's total_jobs is the
number of w's completed transactions and its total_loss their summed
loss; its average figure is total_loss / total_jobs; and the report
is sorted by that average in descending order. -/
theorem C7_worker_performance_report (db : DB) :
    (∀ s ∈ get_worker_performance db,
      0 < s.total_jobs ∧
      s.total_jobs = countW (completedTs db) s.worker_id ∧
      s.total_loss = sumW (completedTs db) s.worker_id ∧
      s.average_loss_percentage = s.total_loss / (s.total_jobs : ℚ)) ∧
    (∀ w : ℤ, (∃ s ∈ get_worker_performance db, s.worker_id = w) ↔
      ∃ t ∈ db.transactions,
        t.status = TransStatus.completed ∧ t.worker_id = w) ∧
    (get_worker_performance db).Sorted wperfGE := by
  have hchar : ∀ w : ℤ, statsFor w ((completedTs db).foldl (bump db) []) =
      (if countW (completedTs db) w = 0 then none
       else some ⟨w, fullNameOf db w, roleOf db w, countW (completedTs db) w,
         sumW (completedTs db) w, 0⟩) := by
    intro w
    have h := statsFor_foldl db (completedTs db) [] w
    simpa [statsFor] using h
  have hnd : (wkeys ((completedTs db).foldl (bump db) [])).Nodup :=
    wkeys_nodup_foldl db _ [] (by simp [wkeys])
  have hmem : ∀ s : WStats, s ∈ get_worker_performance db ↔
      ∃ s₀ ∈ (completedTs db).foldl (bump db) [], setAvg s₀ = s := by
    intro s
    unfold get_worker_performance
    rw [List.mem_insertionSort, List.mem_map]
  refine ⟨?_, ?_, ?_⟩
  · intro s hs
    obtain ⟨s₀, hs₀, hfs⟩ := (hmem s).mp hs
    have hstats := statsFor_of_mem hnd hs₀
    rw [hchar s₀.worker_id] at hstats
    by_cases h0 : countW (completedTs db) s₀.worker_id = 0
    · rw [if_pos h0] at hstats
      cases hstats
    · rw [if_neg h0] at hstats
      have hrec2 : s₀ = ⟨s₀.worker_id, fullNameOf db s₀.worker_id,
          roleOf db s₀.worker_id, countW (completedTs db) s₀.worker_id,
          sumW (completedTs db) s₀.worker_id, 0⟩ := by
        exact (Option.some_inj.mp hstats).symm
      have hjobs : s₀.total_jobs = countW (completedTs db) s₀.worker_id := by
        rw [hrec2]
      have hloss : s₀.total_loss = sumW (completedTs db) s₀.worker_id := by
        rw [hrec2]
      have hpos : 0 < s₀.total_jobs := by
        rw [hjobs]
        exact Nat.pos_of_ne_zero h0
      subst hfs
      have hworker : (setAvg s₀).worker_id = s₀.worker_id := rfl
      have hjobs2 : (setAvg s₀).total_jobs = s₀.total_jobs := rfl
      have hloss2 : (setAvg s₀).total_loss = s₀.total_loss := rfl
      refine ⟨by rw [hjobs2]; exact hpos, by rw [hjobs2, hworker, hjobs],
        by rw [hloss2, hworker, hloss], ?_⟩
      show (if 0 < s₀.total_jobs then s₀.total_loss / (s₀.total_jobs : ℚ)
        else 0) = _
      rw [if_pos hpos]
      rfl
  · intro w
    constructor
    · rintro ⟨s, hs, hw⟩
      obtain ⟨s₀, hs₀, hfs⟩ := (hmem s).mp hs
      have hw0 : s₀.worker_id = w := by
        rw [← hw, ← hfs]
        rfl
      have hstats := statsFor_of_mem hnd hs₀
      rw [hchar s₀.worker_id] at hstats
      by_cases h0 : countW (completedTs db) s₀.worker_id = 0
      · rw [if_pos h0] at hstats
        cases hstats
      · have hpos : 0 < (completedTs db).countP
            (fun t => t.worker_id == s₀.worker_id) :=
          Nat.pos_of_ne_zero h0
        rw [List.countP_pos_iff] at hpos
        obtain ⟨t, ht, htw⟩ := hpos
        unfold completedTs at ht
        rw [List.mem_filter] at ht
        refine ⟨t, ht.1, by simpa using ht.2, ?_⟩
        rw [← hw0]
        simpa using htw
    · rintro ⟨t, ht, hst, hw⟩
      have htc : t ∈ completedTs db := by
        unfold completedTs
        rw [List.mem_filter]
        exact ⟨ht, by simp [hst]⟩
      have h0 : countW (completedTs db) w ≠ 0 := by
        unfold countW
        intro h
        rw [List.countP_eq_zero] at h
        exact h t htc (by simp [hw])
      have hsome := hchar w
      rw [if_neg h0] at hsome
      have hmem0 := mem_of_statsFor hsome
      refine ⟨setAvg ⟨w, fullNameOf db w, roleOf db w,
        countW (completedTs db) w, sumW (completedTs db) w, 0⟩,
        (hmem _).mpr ⟨_, hmem0, rfl⟩, rfl⟩
  · unfold get_worker_performance
    exact List.sorted_insertionSort wperfGE _

end Jewelry
